import Mathlib

/-! Queue consumer of the staking indexer.

Shallow embedding of `consumer/queue_consumer.go`.

The file composes three external collaborators that are not part of it:
the queue client (`client.NewQueueClient`, `SendMessage`, `Stop`), the JSON
encoder (`json.Marshal`) and the logger. Each call to a collaborator is an
*effect*: it is appended to a trace together with the value it returned, and
the value it returns is chosen by an environment that may look at the whole
trace so far. Every function of the source becomes a function from the trace
before the call to its Go return value and the trace after the call.
-/

namespace Consumer

/-! ## Go values -/

/-- A Go `error` value that is not nil: either an error that wraps nothing, or
an error built by `fmt.Errorf` with the `%w` verb, which keeps its cause. A Go
`error` that may be nil is an `Option GoError`. -/
inductive GoError where
  | plain (msg : String)
  | wrapping (msg : String) (cause : GoError)
deriving DecidableEq, Repr

/-- The method `Error()` of a Go error: its message. -/
def GoError.Error : GoError → String
  | .plain msg => msg
  | .wrapping msg _ => msg

/-- The function `errors.Unwrap`: the wrapped cause, if there is one. -/
def GoError.Unwrap : GoError → Option GoError
  | .plain _ => none
  | .wrapping _ cause => some cause

/-- The call `fmt.Errorf(lead + "%w", err)`: the message is the text before
the verb followed by the message of `err`, and `err` is kept as the cause. -/
def Errorf (lead : String) (err : GoError) : GoError :=
  .wrapping (lead ++ err.Error) err

/-- A value of the interface `client.QueueClient`, by identity. -/
abbrev QueueClient := Nat

/-- A `*zap.Logger`, as the list of fields attached to it. -/
structure Logger where
  fields : List (String × String)
deriving DecidableEq, Repr

/-- The call `logger.With(zap.String(key, value))`. -/
def Logger.With (logger : Logger) (key value : String) : Logger :=
  { fields := logger.fields ++ [(key, value)] }

/-- The fields of `config.QueueConfig` that the consumer reads. -/
structure QueueConfig where
  Url : String
  User : String
  Password : String
deriving DecidableEq, Repr

/-- The result of `client.NewQueueClient`: a client or an error. -/
inductive OpenResult where
  | ok (q : QueueClient)
  | err (e : GoError)
deriving DecidableEq, Repr

/-- The result of `json.Marshal` followed by the conversion of the bytes to a
string: the message body, or an error. -/
inductive MarshalResult where
  | ok (messageBody : String)
  | error (err : GoError)
deriving DecidableEq, Repr

/-! ## Effects -/

/-- One call to an external collaborator, with the value it returned.
`sendMessage` is always called with the context `context.TODO()`. -/
inductive Effect where
  | newQueueClient (url user password queueName : String) (res : OpenResult)
  | sendMessage (q : QueueClient) (messageBody : String) (res : Option GoError)
  | stop (q : QueueClient) (res : Option GoError)
  | info (logger : Logger) (msg : String) (txHash : String)
deriving DecidableEq, Repr

/-- The calls made so far, oldest first. -/
abbrev Trace := List Effect

/-- Everything the source file takes from outside: the three queue names of
package `types`, the queue client, and for each event type (declared in
package `types`) its encoder `json.Marshal` and the transaction field the
source logs. The answers of the queue client may depend on the trace so far.
An event here is the value behind a non-nil pointer. -/
structure Env (SE UE WE : Type) where
  ActiveStakingQueueName : String
  UnbondingStakingQueueName : String
  WithdrawStakingQueueName : String
  NewQueueClient : Trace → String → String → String → String → OpenResult
  SendMessage : Trace → QueueClient → String → Option GoError
  StopClient : Trace → QueueClient → Option GoError
  marshalStaking : SE → MarshalResult
  marshalUnbonding : UE → MarshalResult
  marshalWithdraw : WE → MarshalResult
  StakingTxHex : SE → String
  UnbondingStakingTxHashHex : UE → String
  WithdrawStakingTxHashHex : WE → String

/-- The struct `QueueConsumer`. -/
structure QueueConsumer where
  StakingQueue : QueueClient
  UnbondingQueue : QueueClient
  WithdrawQueue : QueueClient
  logger : Logger
deriving DecidableEq, Repr

/-! ## The functions of the source -/

section Source

variable {SE UE WE : Type}

/-- The function `NewQueueConsumer`. The Go result is the pair of a pointer,
nil or not, and an error, nil or not. -/
def NewQueueConsumer (env : Env SE UE WE) (cfg : QueueConfig) (logger : Logger)
    (tr : Trace) : (Option QueueConsumer × Option GoError) × Trace :=
  let r1 := env.NewQueueClient tr cfg.Url cfg.User cfg.Password env.ActiveStakingQueueName
  let t1 := tr ++ [Effect.newQueueClient cfg.Url cfg.User cfg.Password
    env.ActiveStakingQueueName r1]
  match r1 with
  | .err err => ((none, some (Errorf "failed to create staking queue: " err)), t1)
  | .ok stakingQueue =>
    let r2 := env.NewQueueClient t1 cfg.Url cfg.User cfg.Password
      env.UnbondingStakingQueueName
    let t2 := t1 ++ [Effect.newQueueClient cfg.Url cfg.User cfg.Password
      env.UnbondingStakingQueueName r2]
    match r2 with
    | .err err => ((none, some (Errorf "failed to create unbonding queue: " err)), t2)
    | .ok unbondingQueue =>
      let r3 := env.NewQueueClient t2 cfg.Url cfg.User cfg.Password
        env.WithdrawStakingQueueName
      let t3 := t2 ++ [Effect.newQueueClient cfg.Url cfg.User cfg.Password
        env.WithdrawStakingQueueName r3]
      match r3 with
      | .err err => ((none, some (Errorf "failed to create withdraw queue: " err)), t3)
      | .ok withdrawQueue =>
        ((some { StakingQueue := stakingQueue
                 UnbondingQueue := unbondingQueue
                 WithdrawQueue := withdrawQueue
                 logger := logger.With "module" "queue consumer" }, none), t3)

/-- The method `Start`. -/
def Start (_qc : QueueConsumer) (tr : Trace) : Option GoError × Trace :=
  (none, tr)

/-- The method `PushStakingEvent`. -/
def PushStakingEvent (env : Env SE UE WE) (qc : QueueConsumer) (ev : SE)
    (tr : Trace) : Option GoError × Trace :=
  match env.marshalStaking ev with
  | .error err => (some err, tr)
  | .ok messageBody =>
    let t1 := tr ++ [Effect.info qc.logger "pushing staking event" (env.StakingTxHex ev)]
    let r := env.SendMessage t1 qc.StakingQueue messageBody
    let t2 := t1 ++ [Effect.sendMessage qc.StakingQueue messageBody r]
    match r with
    | some err => (some (Errorf "failed to push staking event: " err), t2)
    | none =>
      (none, t2 ++ [Effect.info qc.logger "successfully pushed staking event"
        (env.StakingTxHex ev)])

/-- The method `PushUnbondingEvent`. -/
def PushUnbondingEvent (env : Env SE UE WE) (qc : QueueConsumer) (ev : UE)
    (tr : Trace) : Option GoError × Trace :=
  match env.marshalUnbonding ev with
  | .error err => (some err, tr)
  | .ok messageBody =>
    let t1 := tr ++ [Effect.info qc.logger "pushing unbonding event"
      (env.UnbondingStakingTxHashHex ev)]
    let r := env.SendMessage t1 qc.UnbondingQueue messageBody
    let t2 := t1 ++ [Effect.sendMessage qc.UnbondingQueue messageBody r]
    match r with
    | some err => (some (Errorf "failed to push unbonding event: " err), t2)
    | none =>
      (none, t2 ++ [Effect.info qc.logger "successfully pushed unbonding event"
        (env.UnbondingStakingTxHashHex ev)])

/-- The method `PushWithdrawEvent`. -/
def PushWithdrawEvent (env : Env SE UE WE) (qc : QueueConsumer) (ev : WE)
    (tr : Trace) : Option GoError × Trace :=
  match env.marshalWithdraw ev with
  | .error err => (some err, tr)
  | .ok messageBody =>
    let t1 := tr ++ [Effect.info qc.logger "pushing withdraw event"
      (env.WithdrawStakingTxHashHex ev)]
    let r := env.SendMessage t1 qc.WithdrawQueue messageBody
    let t2 := t1 ++ [Effect.sendMessage qc.WithdrawQueue messageBody r]
    match r with
    | some err => (some (Errorf "failed to push withdraw event: " err), t2)
    | none =>
      (none, t2 ++ [Effect.info qc.logger "successfully pushed withdraw event"
        (env.WithdrawStakingTxHashHex ev)])

/-- The method `Stop`. -/
def Stop (env : Env SE UE WE) (qc : QueueConsumer) (tr : Trace) :
    Option GoError × Trace :=
  let r1 := env.StopClient tr qc.StakingQueue
  let t1 := tr ++ [Effect.stop qc.StakingQueue r1]
  match r1 with
  | some err => (some err, t1)
  | none =>
    let r2 := env.StopClient t1 qc.UnbondingQueue
    let t2 := t1 ++ [Effect.stop qc.UnbondingQueue r2]
    match r2 with
    | some err => (some err, t2)
    | none =>
      let r3 := env.StopClient t2 qc.WithdrawQueue
      let t3 := t2 ++ [Effect.stop qc.WithdrawQueue r3]
      match r3 with
      | some err => (some err, t3)
      | none => (none, t3)

end Source

/-! ## Reading a trace -/

/-- The `SendMessage` calls of a trace: client and message body, in order. -/
def sendsOf : Trace → List (QueueClient × String)
  | [] => []
  | .sendMessage q body _ :: rest => (q, body) :: sendsOf rest
  | _ :: rest => sendsOf rest

/-- The `Stop` calls of a trace: client and returned error, in order. -/
def stopsOf : Trace → List (QueueClient × Option GoError)
  | [] => []
  | .stop q res :: rest => (q, res) :: stopsOf rest
  | _ :: rest => stopsOf rest

/-- The `NewQueueClient` calls of a trace, in order. -/
def opensOf : Trace → List (String × String × String × String × OpenResult)
  | [] => []
  | .newQueueClient url user password queueName res :: rest =>
    (url, user, password, queueName, res) :: opensOf rest
  | _ :: rest => opensOf rest

/-- The clients that the `NewQueueClient` calls of a trace returned. -/
def openedClients : Trace → List QueueClient
  | [] => []
  | .newQueueClient _ _ _ _ (.ok q) :: rest => q :: openedClients rest
  | _ :: rest => openedClients rest

/-- Some `SendMessage` call of the trace is made on a client on which a `Stop`
call was made earlier in the trace, or on a client of the list `closed`. -/
def sendAfterClose (closed : List QueueClient) : Trace → Bool
  | [] => false
  | .stop q _ :: rest => sendAfterClose (q :: closed) rest
  | .sendMessage q _ _ :: rest => closed.contains q || sendAfterClose closed rest
  | _ :: rest => sendAfterClose closed rest

/-- The answer of the environment to an open of queue `queueName` with the
connection parameters of `cfg`, after the calls of `tr`. -/
def openAnswer {SE UE WE : Type} (env : Env SE UE WE) (cfg : QueueConfig) (tr : Trace)
    (queueName : String) : OpenResult :=
  env.NewQueueClient tr cfg.Url cfg.User cfg.Password queueName

/-- The record of an open of queue `queueName` with the connection parameters
of `cfg`, which returned `res`. -/
def openCall (cfg : QueueConfig) (queueName : String) (res : OpenResult) : Effect :=
  Effect.newQueueClient cfg.Url cfg.User cfg.Password queueName res

/-! ## Sequences of calls on one consumer -/

/-- One call of a method of a `QueueConsumer`. -/
inductive Call (SE UE WE : Type) where
  | pushStaking (ev : SE)
  | pushUnbonding (ev : UE)
  | pushWithdraw (ev : WE)
  | stop

/-- The call is one of the three push methods. -/
def Call.isPush {SE UE WE : Type} : Call SE UE WE → Bool
  | .stop => false
  | _ => true

/-- Run one method call. -/
def runCall {SE UE WE : Type} (env : Env SE UE WE) (qc : QueueConsumer) :
    Call SE UE WE → Trace → Option GoError × Trace
  | .pushStaking ev, tr => PushStakingEvent env qc ev tr
  | .pushUnbonding ev, tr => PushUnbondingEvent env qc ev tr
  | .pushWithdraw ev, tr => PushWithdrawEvent env qc ev tr
  | .stop, tr => Stop env qc tr

/-- Run method calls one after the other on the same consumer; the result is
the trace after the last call. -/
def runCalls {SE UE WE : Type} (env : Env SE UE WE) (qc : QueueConsumer) :
    List (Call SE UE WE) → Trace → Trace
  | [], tr => tr
  | c :: cs, tr => runCalls env qc cs (runCall env qc c tr).2

/-- Some push call comes after a `Stop` call in the sequence. -/
def pushAfterStop {SE UE WE : Type} : List (Call SE UE WE) → Bool
  | [] => false
  | .stop :: rest => rest.any Call.isPush
  | _ :: rest => pushAfterStop rest

/-! ## A concrete environment

Events are given by their transaction hash alone; the encoder rejects the
empty hash. Every open returns a fresh client, and every send and close
succeeds. The variants make one collaborator fail. -/

/-- An environment in which every call to the queue client succeeds. -/
def demoEnv : Env String String String where
  ActiveStakingQueueName := "active_staking_queue"
  UnbondingStakingQueueName := "unbonding_staking_queue"
  WithdrawStakingQueueName := "withdraw_staking_queue"
  NewQueueClient := fun tr _ _ _ _ => .ok (opensOf tr).length
  SendMessage := fun _ _ _ => none
  StopClient := fun _ _ => none
  marshalStaking := fun ev =>
    if ev = "" then .error (.plain "json: unsupported value") else .ok ("staking " ++ ev)
  marshalUnbonding := fun ev =>
    if ev = "" then .error (.plain "json: unsupported value") else .ok ("unbonding " ++ ev)
  marshalWithdraw := fun ev =>
    if ev = "" then .error (.plain "json: unsupported value") else .ok ("withdraw " ++ ev)
  StakingTxHex := fun ev => ev
  UnbondingStakingTxHashHex := fun ev => ev
  WithdrawStakingTxHashHex := fun ev => ev

/-- As `demoEnv`, but every send is refused. -/
def refusingEnv : Env String String String :=
  { demoEnv with SendMessage := fun _ _ _ => some (.plain "connection refused") }

/-- As `demoEnv`, but the second open fails. -/
def secondOpenFailsEnv : Env String String String :=
  { demoEnv with
    NewQueueClient := fun tr _ _ _ _ =>
      if (opensOf tr).length = 1 then .err (.plain "dial tcp: connection refused")
      else .ok (opensOf tr).length }

/-- As `demoEnv`, but closing client `1` fails. -/
def secondCloseFailsEnv : Env String String String :=
  { demoEnv with
    StopClient := fun _ q => if q = 1 then some (.plain "channel already closed") else none }

/-- A configuration. -/
def demoCfg : QueueConfig :=
  { Url := "localhost:5672", User := "user", Password := "password" }

/-- A logger without fields. -/
def demoLogger : Logger := { fields := [] }

/-- The consumer that `NewQueueConsumer` builds in `demoEnv` from an empty trace. -/
def demoConsumer : QueueConsumer :=
  { StakingQueue := 0, UnbondingQueue := 1, WithdrawQueue := 2,
    logger := demoLogger.With "module" "queue consumer" }

/-! ## Lemmas on traces -/

theorem sendsOf_append (a b : Trace) : sendsOf (a ++ b) = sendsOf a ++ sendsOf b := by
  induction a with
  | nil => rfl
  | cons e rest ih => cases e <;> simp [sendsOf, ih]

theorem stopsOf_append (a b : Trace) : stopsOf (a ++ b) = stopsOf a ++ stopsOf b := by
  induction a with
  | nil => rfl
  | cons e rest ih => cases e <;> simp [stopsOf, ih]

theorem opensOf_append (a b : Trace) : opensOf (a ++ b) = opensOf a ++ opensOf b := by
  induction a with
  | nil => rfl
  | cons e rest ih => cases e <;> simp [opensOf, ih]

/-! ## The push methods -/

section Push

variable {SE UE WE : Type}

/-- The trace of a staking push whose event serializes: the intent record, one
send on the staking client, and the confirmation record when the send
succeeded. -/
theorem PushStakingEvent_ok (env : Env SE UE WE) (qc : QueueConsumer) (ev : SE)
    (tr : Trace) (body : String) (h : env.marshalStaking ev = .ok body) :
    PushStakingEvent env qc ev tr =
      let t1 := tr ++ [Effect.info qc.logger "pushing staking event" (env.StakingTxHex ev)]
      let r := env.SendMessage t1 qc.StakingQueue body
      (r.map (Errorf "failed to push staking event: "),
        t1 ++ [Effect.sendMessage qc.StakingQueue body r] ++
          (if r.isSome then [] else
            [Effect.info qc.logger "successfully pushed staking event"
              (env.StakingTxHex ev)])) := by
  simp only [PushStakingEvent, h]
  cases env.SendMessage (tr ++ [Effect.info qc.logger "pushing staking event"
    (env.StakingTxHex ev)]) qc.StakingQueue body <;> simp

/-- The trace of an unbonding push whose event serializes. -/
theorem PushUnbondingEvent_ok (env : Env SE UE WE) (qc : QueueConsumer) (ev : UE)
    (tr : Trace) (body : String) (h : env.marshalUnbonding ev = .ok body) :
    PushUnbondingEvent env qc ev tr =
      let t1 := tr ++ [Effect.info qc.logger "pushing unbonding event"
        (env.UnbondingStakingTxHashHex ev)]
      let r := env.SendMessage t1 qc.UnbondingQueue body
      (r.map (Errorf "failed to push unbonding event: "),
        t1 ++ [Effect.sendMessage qc.UnbondingQueue body r] ++
          (if r.isSome then [] else
            [Effect.info qc.logger "successfully pushed unbonding event"
              (env.UnbondingStakingTxHashHex ev)])) := by
  simp only [PushUnbondingEvent, h]
  cases env.SendMessage (tr ++ [Effect.info qc.logger "pushing unbonding event"
    (env.UnbondingStakingTxHashHex ev)]) qc.UnbondingQueue body <;> simp

/-- The trace of a withdraw push whose event serializes. -/
theorem PushWithdrawEvent_ok (env : Env SE UE WE) (qc : QueueConsumer) (ev : WE)
    (tr : Trace) (body : String) (h : env.marshalWithdraw ev = .ok body) :
    PushWithdrawEvent env qc ev tr =
      let t1 := tr ++ [Effect.info qc.logger "pushing withdraw event"
        (env.WithdrawStakingTxHashHex ev)]
      let r := env.SendMessage t1 qc.WithdrawQueue body
      (r.map (Errorf "failed to push withdraw event: "),
        t1 ++ [Effect.sendMessage qc.WithdrawQueue body r] ++
          (if r.isSome then [] else
            [Effect.info qc.logger "successfully pushed withdraw event"
              (env.WithdrawStakingTxHashHex ev)])) := by
  simp only [PushWithdrawEvent, h]
  cases env.SendMessage (tr ++ [Effect.info qc.logger "pushing withdraw event"
    (env.WithdrawStakingTxHashHex ev)]) qc.WithdrawQueue body <;> simp

/-- A push whose event does not serialize returns the encoder error and leaves
the trace as it was. -/
theorem PushStakingEvent_error (env : Env SE UE WE) (qc : QueueConsumer) (ev : SE)
    (tr : Trace) (e : GoError) (h : env.marshalStaking ev = .error e) :
    PushStakingEvent env qc ev tr = (some e, tr) := by
  simp only [PushStakingEvent, h]

theorem PushUnbondingEvent_error (env : Env SE UE WE) (qc : QueueConsumer) (ev : UE)
    (tr : Trace) (e : GoError) (h : env.marshalUnbonding ev = .error e) :
    PushUnbondingEvent env qc ev tr = (some e, tr) := by
  simp only [PushUnbondingEvent, h]

theorem PushWithdrawEvent_error (env : Env SE UE WE) (qc : QueueConsumer) (ev : WE)
    (tr : Trace) (e : GoError) (h : env.marshalWithdraw ev = .error e) :
    PushWithdrawEvent env qc ev tr = (some e, tr) := by
  simp only [PushWithdrawEvent, h]

/-- C1: for each of the three push methods and every event whose serialization
succeeds with `body`, the effects the call adds to the trace contain exactly
one send, on the client of its own kind with message body `body` itself, and
no close; nothing is assumed on the outcome of the send. -/
theorem push_sends_exactly_once (env : Env SE UE WE) (qc : QueueConsumer) (tr : Trace) :
    (∀ (ev : SE) (body : String), env.marshalStaking ev = .ok body →
      ∃ delta, (PushStakingEvent env qc ev tr).2 = tr ++ delta ∧
        sendsOf delta = [(qc.StakingQueue, body)] ∧ stopsOf delta = []) ∧
    (∀ (ev : UE) (body : String), env.marshalUnbonding ev = .ok body →
      ∃ delta, (PushUnbondingEvent env qc ev tr).2 = tr ++ delta ∧
        sendsOf delta = [(qc.UnbondingQueue, body)] ∧ stopsOf delta = []) ∧
    (∀ (ev : WE) (body : String), env.marshalWithdraw ev = .ok body →
      ∃ delta, (PushWithdrawEvent env qc ev tr).2 = tr ++ delta ∧
        sendsOf delta = [(qc.WithdrawQueue, body)] ∧ stopsOf delta = []) := by
  refine ⟨fun ev body h => ?_, fun ev body h => ?_, fun ev body h => ?_⟩
  · rw [PushStakingEvent_ok env qc ev tr body h]
    refine ⟨_, by simp only [List.append_assoc]; rfl, ?_, ?_⟩ <;>
      cases env.SendMessage (tr ++ [Effect.info qc.logger "pushing staking event"
        (env.StakingTxHex ev)]) qc.StakingQueue body <;> simp [sendsOf, stopsOf]
  · rw [PushUnbondingEvent_ok env qc ev tr body h]
    refine ⟨_, by simp only [List.append_assoc]; rfl, ?_, ?_⟩ <;>
      cases env.SendMessage (tr ++ [Effect.info qc.logger "pushing unbonding event"
        (env.UnbondingStakingTxHashHex ev)]) qc.UnbondingQueue body <;>
        simp [sendsOf, stopsOf]
  · rw [PushWithdrawEvent_ok env qc ev tr body h]
    refine ⟨_, by simp only [List.append_assoc]; rfl, ?_, ?_⟩ <;>
      cases env.SendMessage (tr ++ [Effect.info qc.logger "pushing withdraw event"
        (env.WithdrawStakingTxHashHex ev)]) qc.WithdrawQueue body <;>
        simp [sendsOf, stopsOf]

/-- Witness of C1: a staking push whose send is refused. -/
theorem push_sends_exactly_once_witness :
    refusingEnv.marshalStaking "a1b2c3" = .ok "staking a1b2c3" ∧
    ∃ delta, (PushStakingEvent refusingEnv demoConsumer "a1b2c3" []).2 = [] ++ delta ∧
      sendsOf delta = [(demoConsumer.StakingQueue, "staking a1b2c3")] ∧
      stopsOf delta = [] :=
  ⟨by decide,
    (push_sends_exactly_once refusingEnv demoConsumer []).1 "a1b2c3" "staking a1b2c3"
      (by decide)⟩

/-- C2: for each push method and every event whose serialization succeeds, if
the send fails with cause `e` then the push returns an error whose message is
"failed to push <kind> event: " followed by the message of `e`, and whose
wrapped cause is `e`. -/
theorem push_send_failure_is_wrapped (env : Env SE UE WE) (qc : QueueConsumer)
    (tr : Trace) (e : GoError) :
    (∀ (ev : SE) (body : String), env.marshalStaking ev = .ok body →
      env.SendMessage (tr ++ [Effect.info qc.logger "pushing staking event"
        (env.StakingTxHex ev)]) qc.StakingQueue body = some e →
      ∃ err, (PushStakingEvent env qc ev tr).1 = some err ∧
        err.Error = "failed to push staking event: " ++ e.Error ∧
        err.Unwrap = some e) ∧
    (∀ (ev : UE) (body : String), env.marshalUnbonding ev = .ok body →
      env.SendMessage (tr ++ [Effect.info qc.logger "pushing unbonding event"
        (env.UnbondingStakingTxHashHex ev)]) qc.UnbondingQueue body = some e →
      ∃ err, (PushUnbondingEvent env qc ev tr).1 = some err ∧
        err.Error = "failed to push unbonding event: " ++ e.Error ∧
        err.Unwrap = some e) ∧
    (∀ (ev : WE) (body : String), env.marshalWithdraw ev = .ok body →
      env.SendMessage (tr ++ [Effect.info qc.logger "pushing withdraw event"
        (env.WithdrawStakingTxHashHex ev)]) qc.WithdrawQueue body = some e →
      ∃ err, (PushWithdrawEvent env qc ev tr).1 = some err ∧
        err.Error = "failed to push withdraw event: " ++ e.Error ∧
        err.Unwrap = some e) := by
  refine ⟨fun ev body h hs => ?_, fun ev body h hs => ?_, fun ev body h hs => ?_⟩
  · rw [PushStakingEvent_ok env qc ev tr body h]
    simp only [hs]
    exact ⟨_, rfl, rfl, rfl⟩
  · rw [PushUnbondingEvent_ok env qc ev tr body h]
    simp only [hs]
    exact ⟨_, rfl, rfl, rfl⟩
  · rw [PushWithdrawEvent_ok env qc ev tr body h]
    simp only [hs]
    exact ⟨_, rfl, rfl, rfl⟩

/-- Witness of C2: an unbonding push whose send is refused. -/
theorem push_send_failure_is_wrapped_witness :
    refusingEnv.marshalUnbonding "a1b2c3" = .ok "unbonding a1b2c3" ∧
    refusingEnv.SendMessage ([] ++ [Effect.info demoConsumer.logger "pushing unbonding event"
        (refusingEnv.UnbondingStakingTxHashHex "a1b2c3")]) demoConsumer.UnbondingQueue
        "unbonding a1b2c3" = some (.plain "connection refused") ∧
    ∃ err, (PushUnbondingEvent refusingEnv demoConsumer "a1b2c3" []).1 = some err ∧
      err.Error = "failed to push unbonding event: " ++
        (GoError.plain "connection refused").Error ∧
      err.Unwrap = some (.plain "connection refused") :=
  ⟨by decide, by decide,
    (push_send_failure_is_wrapped refusingEnv demoConsumer []
      (.plain "connection refused")).2.1 "a1b2c3" "unbonding a1b2c3"
      (by decide) (by decide)⟩

/-- C3: each push method returns no error exactly when the serialization of
the event succeeds and the send of the serialized event on the client of its
own kind succeeds. -/
theorem push_returns_nil_iff (env : Env SE UE WE) (qc : QueueConsumer) (tr : Trace) :
    (∀ ev : SE, (PushStakingEvent env qc ev tr).1 = none ↔
      ∃ body, env.marshalStaking ev = .ok body ∧
        env.SendMessage (tr ++ [Effect.info qc.logger "pushing staking event"
          (env.StakingTxHex ev)]) qc.StakingQueue body = none) ∧
    (∀ ev : UE, (PushUnbondingEvent env qc ev tr).1 = none ↔
      ∃ body, env.marshalUnbonding ev = .ok body ∧
        env.SendMessage (tr ++ [Effect.info qc.logger "pushing unbonding event"
          (env.UnbondingStakingTxHashHex ev)]) qc.UnbondingQueue body = none) ∧
    (∀ ev : WE, (PushWithdrawEvent env qc ev tr).1 = none ↔
      ∃ body, env.marshalWithdraw ev = .ok body ∧
        env.SendMessage (tr ++ [Effect.info qc.logger "pushing withdraw event"
          (env.WithdrawStakingTxHashHex ev)]) qc.WithdrawQueue body = none) := by
  refine ⟨fun ev => ?_, fun ev => ?_, fun ev => ?_⟩
  · cases h : env.marshalStaking ev with
    | error e => simp [PushStakingEvent_error env qc ev tr e h]
    | ok body => simp [PushStakingEvent_ok env qc ev tr body h]
  · cases h : env.marshalUnbonding ev with
    | error e => simp [PushUnbondingEvent_error env qc ev tr e h]
    | ok body => simp [PushUnbondingEvent_ok env qc ev tr body h]
  · cases h : env.marshalWithdraw ev with
    | error e => simp [PushWithdrawEvent_error env qc ev tr e h]
    | ok body => simp [PushWithdrawEvent_ok env qc ev tr body h]

/-- C4: for each push method, if the serialization of the event fails with
error `e`, the push returns `e` itself and adds nothing to the trace: no send
is made on any client. -/
theorem push_marshal_failure_is_returned (env : Env SE UE WE) (qc : QueueConsumer)
    (tr : Trace) (e : GoError) :
    (∀ ev : SE, env.marshalStaking ev = .error e →
      (PushStakingEvent env qc ev tr).1 = some e ∧
        ∃ delta, (PushStakingEvent env qc ev tr).2 = tr ++ delta ∧ sendsOf delta = [] ∧
          delta = []) ∧
    (∀ ev : UE, env.marshalUnbonding ev = .error e →
      (PushUnbondingEvent env qc ev tr).1 = some e ∧
        ∃ delta, (PushUnbondingEvent env qc ev tr).2 = tr ++ delta ∧ sendsOf delta = [] ∧
          delta = []) ∧
    (∀ ev : WE, env.marshalWithdraw ev = .error e →
      (PushWithdrawEvent env qc ev tr).1 = some e ∧
        ∃ delta, (PushWithdrawEvent env qc ev tr).2 = tr ++ delta ∧ sendsOf delta = [] ∧
          delta = []) := by
  refine ⟨fun ev h => ?_, fun ev h => ?_, fun ev h => ?_⟩
  · rw [PushStakingEvent_error env qc ev tr e h]
    exact ⟨rfl, [], by simp, rfl, rfl⟩
  · rw [PushUnbondingEvent_error env qc ev tr e h]
    exact ⟨rfl, [], by simp, rfl, rfl⟩
  · rw [PushWithdrawEvent_error env qc ev tr e h]
    exact ⟨rfl, [], by simp, rfl, rfl⟩

/-- Witness of C4: a withdraw push of an event that the encoder rejects. -/
theorem push_marshal_failure_is_returned_witness :
    demoEnv.marshalWithdraw "" = .error (.plain "json: unsupported value") ∧
    (PushWithdrawEvent demoEnv demoConsumer "" []).1 =
      some (.plain "json: unsupported value") ∧
    ∃ delta, (PushWithdrawEvent demoEnv demoConsumer "" []).2 = [] ++ delta ∧
      sendsOf delta = [] ∧ delta = [] :=
  ⟨by decide,
    (push_marshal_failure_is_returned demoEnv demoConsumer []
      (.plain "json: unsupported value")).2.2 "" (by decide)⟩

end Push

/-! ## Shutdown -/

section Shutdown

variable {SE UE WE : Type}

/-- The three outcomes of `Stop`, by the first close that fails. -/
theorem Stop_cases (env : Env SE UE WE) (qc : QueueConsumer) (tr : Trace) :
    let s1 := fun r => tr ++ [Effect.stop qc.StakingQueue r]
    let s2 := fun r => s1 none ++ [Effect.stop qc.UnbondingQueue r]
    let s3 := fun r => s2 none ++ [Effect.stop qc.WithdrawQueue r]
    (∀ e, env.StopClient tr qc.StakingQueue = some e →
      Stop env qc tr = (some e, s1 (some e))) ∧
    (env.StopClient tr qc.StakingQueue = none →
      ∀ e, env.StopClient (s1 none) qc.UnbondingQueue = some e →
        Stop env qc tr = (some e, s2 (some e))) ∧
    (env.StopClient tr qc.StakingQueue = none →
      env.StopClient (s1 none) qc.UnbondingQueue = none →
        Stop env qc tr = (env.StopClient (s2 none) qc.WithdrawQueue,
          s3 (env.StopClient (s2 none) qc.WithdrawQueue))) := by
  refine ⟨fun e h1 => ?_, fun h1 e h2 => ?_, fun h1 h2 => ?_⟩
  · simp only [Stop, h1]
  · simp only [Stop, h1, h2]
  · simp only [Stop, h1, h2]
    cases env.StopClient (tr ++ [Effect.stop qc.StakingQueue none] ++
      [Effect.stop qc.UnbondingQueue none]) qc.WithdrawQueue <;> rfl

/-- C5: `Stop` makes only close calls, on a non-empty initial segment of
staking, unbonding, withdraw; every close before the last one made succeeded;
`Stop` returns what the last close made returned, and when that is no error
all three closes were made. When the staking close fails with `e`, it is the
only call made and `e` is returned; when the staking close succeeds and the
unbonding close fails with `e`, these two are the only calls made and `e` is
returned. -/
theorem Stop_closes_in_order_until_first_failure (env : Env SE UE WE)
    (qc : QueueConsumer) (tr : Trace) :
    (∃ rs : List (QueueClient × Option GoError),
      (Stop env qc tr).2 = tr ++ rs.map (fun p => Effect.stop p.1 p.2) ∧
      rs.map Prod.fst <+: [qc.StakingQueue, qc.UnbondingQueue, qc.WithdrawQueue] ∧
      rs ≠ [] ∧
      (∀ p ∈ rs.dropLast, p.2 = none) ∧
      rs.getLast?.map Prod.snd = some (Stop env qc tr).1 ∧
      ((Stop env qc tr).1 = none → rs.length = 3)) ∧
    (∀ e, env.StopClient tr qc.StakingQueue = some e →
      Stop env qc tr = (some e, tr ++ [Effect.stop qc.StakingQueue (some e)])) ∧
    (env.StopClient tr qc.StakingQueue = none →
      ∀ e, env.StopClient (tr ++ [Effect.stop qc.StakingQueue none]) qc.UnbondingQueue
          = some e →
        Stop env qc tr = (some e, tr ++ [Effect.stop qc.StakingQueue none,
          Effect.stop qc.UnbondingQueue (some e)])) ∧
    (env.StopClient tr qc.StakingQueue = none →
      env.StopClient (tr ++ [Effect.stop qc.StakingQueue none]) qc.UnbondingQueue = none →
      ∀ r, env.StopClient (tr ++ [Effect.stop qc.StakingQueue none,
          Effect.stop qc.UnbondingQueue none]) qc.WithdrawQueue = r →
        Stop env qc tr = (r, tr ++ [Effect.stop qc.StakingQueue none,
          Effect.stop qc.UnbondingQueue none, Effect.stop qc.WithdrawQueue r])) := by
  have hc := Stop_cases env qc tr
  simp only [List.append_assoc, List.singleton_append] at hc
  obtain ⟨hA, hB, hC⟩ := hc
  refine ⟨?_, hA, hB, ?_⟩
  · cases h1 : env.StopClient tr qc.StakingQueue with
    | some e =>
      refine ⟨[(qc.StakingQueue, some e)], ?_⟩
      rw [hA e h1]
      simp
    | none =>
      cases h2 : env.StopClient (tr ++ [Effect.stop qc.StakingQueue none])
          qc.UnbondingQueue with
      | some e =>
        refine ⟨[(qc.StakingQueue, none), (qc.UnbondingQueue, some e)], ?_⟩
        rw [hB h1 e h2]
        simp
      | none =>
        refine ⟨[(qc.StakingQueue, none), (qc.UnbondingQueue, none),
          (qc.WithdrawQueue, env.StopClient (tr ++ [Effect.stop qc.StakingQueue none,
            Effect.stop qc.UnbondingQueue none]) qc.WithdrawQueue)], ?_⟩
        rw [hC h1 h2]
        simp
  · intro h1 h2 r h3
    rw [hC h1 h2, h3]
    rfl

/-- Witness of C5: the unbonding close fails, so the withdraw client is not
closed. -/
theorem Stop_closes_in_order_until_first_failure_witness :
    secondCloseFailsEnv.StopClient [] demoConsumer.StakingQueue = none ∧
    secondCloseFailsEnv.StopClient ([] ++ [Effect.stop demoConsumer.StakingQueue none])
      demoConsumer.UnbondingQueue = some (.plain "channel already closed") ∧
    Stop secondCloseFailsEnv demoConsumer [] =
      (some (.plain "channel already closed"),
        [] ++ [Effect.stop demoConsumer.StakingQueue none,
          Effect.stop demoConsumer.UnbondingQueue (some (.plain "channel already closed"))]) :=
  ⟨by decide, by decide,
    (Stop_closes_in_order_until_first_failure secondCloseFailsEnv demoConsumer []).2.2.1
      (by decide) (.plain "channel already closed") (by decide)⟩

end Shutdown

/-! ## Construction -/

section Construction

variable {SE UE WE : Type}

/-- The four outcomes of `NewQueueConsumer`, by the first open that fails. -/
theorem NewQueueConsumer_cases (env : Env SE UE WE) (cfg : QueueConfig)
    (logger : Logger) (tr : Trace) :
    let o1 := fun r => Effect.newQueueClient cfg.Url cfg.User cfg.Password
      env.ActiveStakingQueueName r
    let o2 := fun r => Effect.newQueueClient cfg.Url cfg.User cfg.Password
      env.UnbondingStakingQueueName r
    let o3 := fun r => Effect.newQueueClient cfg.Url cfg.User cfg.Password
      env.WithdrawStakingQueueName r
    (∀ e, env.NewQueueClient tr cfg.Url cfg.User cfg.Password
        env.ActiveStakingQueueName = .err e →
      NewQueueConsumer env cfg logger tr =
        ((none, some (Errorf "failed to create staking queue: " e)),
          tr ++ [o1 (.err e)])) ∧
    (∀ q1, env.NewQueueClient tr cfg.Url cfg.User cfg.Password
        env.ActiveStakingQueueName = .ok q1 →
      (∀ e, env.NewQueueClient (tr ++ [o1 (.ok q1)]) cfg.Url cfg.User cfg.Password
          env.UnbondingStakingQueueName = .err e →
        NewQueueConsumer env cfg logger tr =
          ((none, some (Errorf "failed to create unbonding queue: " e)),
            tr ++ [o1 (.ok q1), o2 (.err e)])) ∧
      (∀ q2, env.NewQueueClient (tr ++ [o1 (.ok q1)]) cfg.Url cfg.User cfg.Password
          env.UnbondingStakingQueueName = .ok q2 →
        (∀ e, env.NewQueueClient (tr ++ [o1 (.ok q1), o2 (.ok q2)]) cfg.Url cfg.User
            cfg.Password env.WithdrawStakingQueueName = .err e →
          NewQueueConsumer env cfg logger tr =
            ((none, some (Errorf "failed to create withdraw queue: " e)),
              tr ++ [o1 (.ok q1), o2 (.ok q2), o3 (.err e)])) ∧
        (∀ q3, env.NewQueueClient (tr ++ [o1 (.ok q1), o2 (.ok q2)]) cfg.Url cfg.User
            cfg.Password env.WithdrawStakingQueueName = .ok q3 →
          NewQueueConsumer env cfg logger tr =
            ((some { StakingQueue := q1, UnbondingQueue := q2, WithdrawQueue := q3,
                     logger := logger.With "module" "queue consumer" }, none),
              tr ++ [o1 (.ok q1), o2 (.ok q2), o3 (.ok q3)])))) := by
  intro o1 o2 o3
  refine ⟨fun e h1 => ?_, fun q1 h1 => ⟨fun e h2 => ?_, fun q2 h2 =>
    ⟨fun e h3 => ?_, fun q3 h3 => ?_⟩⟩⟩
  · simp only [NewQueueConsumer, h1, o1]
  · simp only [o1, List.append_assoc, List.singleton_append, List.nil_append] at h2
    simp [NewQueueConsumer, h1, h2, o1, o2]
  · simp only [o1, o2, List.append_assoc, List.singleton_append, List.nil_append,
      List.cons_append] at h2 h3
    simp [NewQueueConsumer, h1, h2, h3, o1, o2, o3]
  · simp only [o1, o2, List.append_assoc, List.singleton_append, List.nil_append,
      List.cons_append] at h2 h3
    simp [NewQueueConsumer, h1, h2, h3, o1, o2, o3]

/-- C6: the opens are attempted in the order staking, unbonding, withdraw. If
an open fails with cause `e`, it is the last call made, the returned pointer
is nil and the returned error has the message "failed to create <kind> queue: "
followed by the message of `e`, and wraps `e`. A consumer is returned exactly
when the three opens succeed, and exactly when the returned error is nil. -/
theorem NewQueueConsumer_fails_at_first_failed_open (env : Env SE UE WE)
    (cfg : QueueConfig) (logger : Logger) (tr : Trace) :
    (∀ e, openAnswer env cfg tr env.ActiveStakingQueueName = .err e →
      ∃ err, NewQueueConsumer env cfg logger tr =
          ((none, some err), tr ++ [openCall cfg env.ActiveStakingQueueName (.err e)]) ∧
        err.Error = "failed to create staking queue: " ++ e.Error ∧
        err.Unwrap = some e) ∧
    (∀ q1 e, openAnswer env cfg tr env.ActiveStakingQueueName = .ok q1 →
      openAnswer env cfg (tr ++ [openCall cfg env.ActiveStakingQueueName (.ok q1)])
        env.UnbondingStakingQueueName = .err e →
      ∃ err, NewQueueConsumer env cfg logger tr =
          ((none, some err), tr ++ [openCall cfg env.ActiveStakingQueueName (.ok q1),
            openCall cfg env.UnbondingStakingQueueName (.err e)]) ∧
        err.Error = "failed to create unbonding queue: " ++ e.Error ∧
        err.Unwrap = some e) ∧
    (∀ q1 q2 e, openAnswer env cfg tr env.ActiveStakingQueueName = .ok q1 →
      openAnswer env cfg (tr ++ [openCall cfg env.ActiveStakingQueueName (.ok q1)])
        env.UnbondingStakingQueueName = .ok q2 →
      openAnswer env cfg (tr ++ [openCall cfg env.ActiveStakingQueueName (.ok q1),
        openCall cfg env.UnbondingStakingQueueName (.ok q2)])
        env.WithdrawStakingQueueName = .err e →
      ∃ err, NewQueueConsumer env cfg logger tr =
          ((none, some err), tr ++ [openCall cfg env.ActiveStakingQueueName (.ok q1),
            openCall cfg env.UnbondingStakingQueueName (.ok q2),
            openCall cfg env.WithdrawStakingQueueName (.err e)]) ∧
        err.Error = "failed to create withdraw queue: " ++ e.Error ∧
        err.Unwrap = some e) ∧
    ((NewQueueConsumer env cfg logger tr).1.1.isSome ↔
      ∃ q1 q2 q3, openAnswer env cfg tr env.ActiveStakingQueueName = .ok q1 ∧
        openAnswer env cfg (tr ++ [openCall cfg env.ActiveStakingQueueName (.ok q1)])
          env.UnbondingStakingQueueName = .ok q2 ∧
        openAnswer env cfg (tr ++ [openCall cfg env.ActiveStakingQueueName (.ok q1),
          openCall cfg env.UnbondingStakingQueueName (.ok q2)])
          env.WithdrawStakingQueueName = .ok q3) ∧
    ((NewQueueConsumer env cfg logger tr).1.1.isSome ↔
      (NewQueueConsumer env cfg logger tr).1.2 = none) := by
  obtain ⟨hA, hB⟩ := NewQueueConsumer_cases env cfg logger tr
  simp only [openAnswer, openCall] at *
  refine ⟨fun e h1 => ⟨_, hA e h1, rfl, rfl⟩,
    fun q1 e h1 h2 => ⟨_, (hB q1 h1).1 e h2, rfl, rfl⟩,
    fun q1 q2 e h1 h2 h3 => ⟨_, ((hB q1 h1).2 q2 h2).1 e h3, rfl, rfl⟩, ?_, ?_⟩
  · cases h1 : env.NewQueueClient tr cfg.Url cfg.User cfg.Password
        env.ActiveStakingQueueName with
    | err e => simp [hA e h1]
    | ok q1 =>
      cases h2 : env.NewQueueClient (tr ++ [Effect.newQueueClient cfg.Url cfg.User
          cfg.Password env.ActiveStakingQueueName (.ok q1)]) cfg.Url cfg.User cfg.Password
          env.UnbondingStakingQueueName with
      | err e => simp [(hB q1 h1).1 e h2, h2]
      | ok q2 =>
        cases h3 : env.NewQueueClient (tr ++ [Effect.newQueueClient cfg.Url cfg.User
            cfg.Password env.ActiveStakingQueueName (.ok q1),
            Effect.newQueueClient cfg.Url cfg.User cfg.Password
              env.UnbondingStakingQueueName (.ok q2)]) cfg.Url cfg.User cfg.Password
            env.WithdrawStakingQueueName with
        | err e => simp [((hB q1 h1).2 q2 h2).1 e h3, h2, h3]
        | ok q3 => simp [((hB q1 h1).2 q2 h2).2 q3 h3, h2, h3]
  · cases h1 : env.NewQueueClient tr cfg.Url cfg.User cfg.Password
        env.ActiveStakingQueueName with
    | err e => simp [hA e h1]
    | ok q1 =>
      cases h2 : env.NewQueueClient (tr ++ [Effect.newQueueClient cfg.Url cfg.User
          cfg.Password env.ActiveStakingQueueName (.ok q1)]) cfg.Url cfg.User cfg.Password
          env.UnbondingStakingQueueName with
      | err e => simp [(hB q1 h1).1 e h2]
      | ok q2 =>
        cases h3 : env.NewQueueClient (tr ++ [Effect.newQueueClient cfg.Url cfg.User
            cfg.Password env.ActiveStakingQueueName (.ok q1),
            Effect.newQueueClient cfg.Url cfg.User cfg.Password
              env.UnbondingStakingQueueName (.ok q2)]) cfg.Url cfg.User cfg.Password
            env.WithdrawStakingQueueName with
        | err e => simp [((hB q1 h1).2 q2 h2).1 e h3]
        | ok q3 => simp [((hB q1 h1).2 q2 h2).2 q3 h3]

/-- Witness of C6: the second open fails. -/
theorem NewQueueConsumer_fails_at_first_failed_open_witness :
    openAnswer secondOpenFailsEnv demoCfg [] secondOpenFailsEnv.ActiveStakingQueueName
      = .ok 0 ∧
    openAnswer secondOpenFailsEnv demoCfg
      ([] ++ [openCall demoCfg secondOpenFailsEnv.ActiveStakingQueueName (.ok 0)])
      secondOpenFailsEnv.UnbondingStakingQueueName
      = .err (.plain "dial tcp: connection refused") ∧
    ∃ err, NewQueueConsumer secondOpenFailsEnv demoCfg demoLogger [] =
        ((none, some err),
          [] ++ [openCall demoCfg secondOpenFailsEnv.ActiveStakingQueueName (.ok 0),
            openCall demoCfg secondOpenFailsEnv.UnbondingStakingQueueName
              (.err (.plain "dial tcp: connection refused"))]) ∧
      err.Error = "failed to create unbonding queue: " ++
        (GoError.plain "dial tcp: connection refused").Error ∧
      err.Unwrap = some (.plain "dial tcp: connection refused") :=
  ⟨by decide, by decide,
    (NewQueueConsumer_fails_at_first_failed_open secondOpenFailsEnv demoCfg demoLogger
      []).2.1 0 (.plain "dial tcp: connection refused") (by decide) (by decide)⟩

/-- C9: when the three opens succeed, `NewQueueConsumer` makes exactly three
calls, all opens with the address, user and password of the configuration, on
the staking, unbonding and withdraw queue names in this order, and the three
fields of the consumer are the clients returned for their own queue name. -/
theorem NewQueueConsumer_binds_each_queue (env : Env SE UE WE) (cfg : QueueConfig)
    (logger : Logger) (tr : Trace) (q1 q2 q3 : QueueClient)
    (h1 : openAnswer env cfg tr env.ActiveStakingQueueName = .ok q1)
    (h2 : openAnswer env cfg (tr ++ [openCall cfg env.ActiveStakingQueueName (.ok q1)])
      env.UnbondingStakingQueueName = .ok q2)
    (h3 : openAnswer env cfg (tr ++ [openCall cfg env.ActiveStakingQueueName (.ok q1),
      openCall cfg env.UnbondingStakingQueueName (.ok q2)])
      env.WithdrawStakingQueueName = .ok q3) :
    ∃ qc delta, NewQueueConsumer env cfg logger tr = ((some qc, none), tr ++ delta) ∧
      delta = [Effect.newQueueClient cfg.Url cfg.User cfg.Password
          env.ActiveStakingQueueName (.ok q1),
        Effect.newQueueClient cfg.Url cfg.User cfg.Password
          env.UnbondingStakingQueueName (.ok q2),
        Effect.newQueueClient cfg.Url cfg.User cfg.Password
          env.WithdrawStakingQueueName (.ok q3)] ∧
      qc.StakingQueue = q1 ∧ qc.UnbondingQueue = q2 ∧ qc.WithdrawQueue = q3 ∧
      qc.logger = logger.With "module" "queue consumer" := by
  obtain ⟨_, hB⟩ := NewQueueConsumer_cases env cfg logger tr
  simp only [openAnswer, openCall] at *
  exact ⟨_, _, ((hB q1 h1).2 q2 h2).2 q3 h3, rfl, rfl, rfl, rfl, rfl⟩

/-- Witness of C9: construction in the environment in which every open
succeeds. -/
theorem NewQueueConsumer_binds_each_queue_witness :
    ∃ qc delta, NewQueueConsumer demoEnv demoCfg demoLogger [] =
        ((some qc, none), [] ++ delta) ∧
      delta = [Effect.newQueueClient demoCfg.Url demoCfg.User demoCfg.Password
          demoEnv.ActiveStakingQueueName (.ok 0),
        Effect.newQueueClient demoCfg.Url demoCfg.User demoCfg.Password
          demoEnv.UnbondingStakingQueueName (.ok 1),
        Effect.newQueueClient demoCfg.Url demoCfg.User demoCfg.Password
          demoEnv.WithdrawStakingQueueName (.ok 2)] ∧
      qc.StakingQueue = 0 ∧ qc.UnbondingQueue = 1 ∧ qc.WithdrawQueue = 2 ∧
      qc.logger = demoLogger.With "module" "queue consumer" :=
  NewQueueConsumer_binds_each_queue demoEnv demoCfg demoLogger [] 0 1 2
    (by decide) (by decide) (by decide)

/-- C7 as stated fails: when the second open fails, the staking client `0`
that was opened is in the trace of `NewQueueConsumer`, nothing is returned, and
no close was made on that client. -/
theorem NewQueueConsumer_leaves_opened_client_unclosed :
    (NewQueueConsumer secondOpenFailsEnv demoCfg demoLogger []).1 =
      (none, some (.wrapping "failed to create unbonding queue: dial tcp: connection refused"
        (.plain "dial tcp: connection refused"))) ∧
    openedClients (NewQueueConsumer secondOpenFailsEnv demoCfg demoLogger []).2 = [0] ∧
    ¬ ∀ q ∈ openedClients (NewQueueConsumer secondOpenFailsEnv demoCfg demoLogger []).2,
      q ∈ (stopsOf (NewQueueConsumer secondOpenFailsEnv demoCfg demoLogger []).2).map
        Prod.fst := by
  decide

/-- C7, amended: `NewQueueConsumer` makes no close call and no send, whatever
the opens return. When the second open fails the staking client that was
opened is left unclosed, and when the third open fails the staking and
unbonding clients that were opened are left unclosed. -/
theorem NewQueueConsumer_closes_nothing (env : Env SE UE WE) (cfg : QueueConfig)
    (logger : Logger) (tr : Trace) :
    ∃ delta, (NewQueueConsumer env cfg logger tr).2 = tr ++ delta ∧
      stopsOf delta = [] ∧ sendsOf delta = [] ∧
      (∀ q1 e, openAnswer env cfg tr env.ActiveStakingQueueName = .ok q1 →
        openAnswer env cfg (tr ++ [openCall cfg env.ActiveStakingQueueName (.ok q1)])
          env.UnbondingStakingQueueName = .err e →
        (NewQueueConsumer env cfg logger tr).1.1 = none ∧ openedClients delta = [q1]) ∧
      (∀ q1 q2 e, openAnswer env cfg tr env.ActiveStakingQueueName = .ok q1 →
        openAnswer env cfg (tr ++ [openCall cfg env.ActiveStakingQueueName (.ok q1)])
          env.UnbondingStakingQueueName = .ok q2 →
        openAnswer env cfg (tr ++ [openCall cfg env.ActiveStakingQueueName (.ok q1),
          openCall cfg env.UnbondingStakingQueueName (.ok q2)])
          env.WithdrawStakingQueueName = .err e →
        (NewQueueConsumer env cfg logger tr).1.1 = none ∧
          openedClients delta = [q1, q2]) := by
  obtain ⟨hA, hB⟩ := NewQueueConsumer_cases env cfg logger tr
  simp only [openAnswer, openCall] at *
  cases h1 : env.NewQueueClient tr cfg.Url cfg.User cfg.Password
      env.ActiveStakingQueueName with
  | err e =>
    refine ⟨_, congrArg Prod.snd (hA e h1), rfl, rfl, ?_, ?_⟩
    · intro q1 e2 h
      cases h
    · intro q1 q2 e2 h
      cases h
  | ok q1 =>
    cases h2 : env.NewQueueClient (tr ++ [Effect.newQueueClient cfg.Url cfg.User
        cfg.Password env.ActiveStakingQueueName (.ok q1)]) cfg.Url cfg.User cfg.Password
        env.UnbondingStakingQueueName with
    | err e =>
      refine ⟨_, congrArg Prod.snd ((hB q1 h1).1 e h2), rfl, rfl, ?_, ?_⟩
      · intro p1 e2 hp _
        cases hp
        rw [(hB q1 h1).1 e h2]
        exact ⟨rfl, rfl⟩
      · intro p1 p2 e2 hp hp2
        cases hp
        rw [h2] at hp2
        cases hp2
    | ok q2 =>
      cases h3 : env.NewQueueClient (tr ++ [Effect.newQueueClient cfg.Url cfg.User
          cfg.Password env.ActiveStakingQueueName (.ok q1),
          Effect.newQueueClient cfg.Url cfg.User cfg.Password
            env.UnbondingStakingQueueName (.ok q2)]) cfg.Url cfg.User cfg.Password
          env.WithdrawStakingQueueName with
      | err e =>
        refine ⟨_, congrArg Prod.snd (((hB q1 h1).2 q2 h2).1 e h3), rfl, rfl, ?_, ?_⟩
        · intro p1 e2 hp hp2
          cases hp
          rw [h2] at hp2
          cases hp2
        · intro p1 p2 e2 hp hp2 _
          cases hp
          rw [h2] at hp2
          cases hp2
          rw [((hB q1 h1).2 q2 h2).1 e h3]
          exact ⟨rfl, rfl⟩
      | ok q3 =>
        refine ⟨_, congrArg Prod.snd (((hB q1 h1).2 q2 h2).2 q3 h3), rfl, rfl, ?_, ?_⟩
        · intro p1 e2 hp hp2
          cases hp
          rw [h2] at hp2
          cases hp2
        · intro p1 p2 e2 hp hp2 hp3
          cases hp
          rw [h2] at hp2
          cases hp2
          rw [h3] at hp3
          cases hp3

/-- Witness of the amended C7: the second open fails and client `0` stays
unclosed. -/
theorem NewQueueConsumer_closes_nothing_witness :
    ∃ delta, (NewQueueConsumer secondOpenFailsEnv demoCfg demoLogger []).2 = [] ++ delta ∧
      stopsOf delta = [] ∧ sendsOf delta = [] ∧
      (NewQueueConsumer secondOpenFailsEnv demoCfg demoLogger []).1.1 = none ∧
      openedClients delta = [0] := by
  obtain ⟨delta, hd, hs, hm, h2, _⟩ :=
    NewQueueConsumer_closes_nothing secondOpenFailsEnv demoCfg demoLogger []
  exact ⟨delta, hd, hs, hm,
    h2 0 (.plain "dial tcp: connection refused") (by decide) (by decide)⟩

end Construction

/-! ## Sends and closes in a sequence of calls -/

section Sequences

variable {SE UE WE : Type}

theorem sendAfterClose_of_no_send (d : Trace) (closed : List QueueClient)
    (h : sendsOf d = []) : sendAfterClose closed d = false := by
  induction d generalizing closed with
  | nil => rfl
  | cons e rest ih =>
    cases e with
    | sendMessage q body r => simp [sendsOf] at h
    | stop q r => exact ih _ (by simpa [sendsOf] using h)
    | newQueueClient a b c n r => exact ih _ (by simpa [sendsOf] using h)
    | info l m t => exact ih _ (by simpa [sendsOf] using h)

theorem sendAfterClose_append_of_no_stop (a b : Trace) (h : stopsOf a = []) :
    sendAfterClose [] (a ++ b) = sendAfterClose [] b := by
  induction a with
  | nil => rfl
  | cons e rest ih =>
    cases e with
    | stop q r => simp [stopsOf] at h
    | sendMessage q body r =>
      simpa [sendAfterClose] using ih (by simpa [stopsOf] using h)
    | newQueueClient x y z n r =>
      simpa [sendAfterClose] using ih (by simpa [stopsOf] using h)
    | info l m t =>
      simpa [sendAfterClose] using ih (by simpa [stopsOf] using h)

/-- A push method adds no close call to the trace. -/
theorem runCall_push_no_stop (env : Env SE UE WE) (qc : QueueConsumer)
    (c : Call SE UE WE) (tr : Trace) (hc : c.isPush = true) :
    ∃ delta, (runCall env qc c tr).2 = tr ++ delta ∧ stopsOf delta = [] := by
  cases c with
  | stop => simp [Call.isPush] at hc
  | pushStaking ev =>
    cases h : env.marshalStaking ev with
    | error e => exact ⟨[], by simp [runCall, PushStakingEvent_error env qc ev tr e h], rfl⟩
    | ok body =>
      refine ⟨_, by simp only [runCall, PushStakingEvent_ok env qc ev tr body h,
        List.append_assoc]; rfl, ?_⟩
      cases env.SendMessage (tr ++ [Effect.info qc.logger "pushing staking event"
        (env.StakingTxHex ev)]) qc.StakingQueue body <;> simp [stopsOf]
  | pushUnbonding ev =>
    cases h : env.marshalUnbonding ev with
    | error e => exact ⟨[], by simp [runCall, PushUnbondingEvent_error env qc ev tr e h], rfl⟩
    | ok body =>
      refine ⟨_, by simp only [runCall, PushUnbondingEvent_ok env qc ev tr body h,
        List.append_assoc]; rfl, ?_⟩
      cases env.SendMessage (tr ++ [Effect.info qc.logger "pushing unbonding event"
        (env.UnbondingStakingTxHashHex ev)]) qc.UnbondingQueue body <;> simp [stopsOf]
  | pushWithdraw ev =>
    cases h : env.marshalWithdraw ev with
    | error e => exact ⟨[], by simp [runCall, PushWithdrawEvent_error env qc ev tr e h], rfl⟩
    | ok body =>
      refine ⟨_, by simp only [runCall, PushWithdrawEvent_ok env qc ev tr body h,
        List.append_assoc]; rfl, ?_⟩
      cases env.SendMessage (tr ++ [Effect.info qc.logger "pushing withdraw event"
        (env.WithdrawStakingTxHashHex ev)]) qc.WithdrawQueue body <;> simp [stopsOf]

/-- The method `Stop` adds no send to the trace. -/
theorem Stop_no_send (env : Env SE UE WE) (qc : QueueConsumer) (tr : Trace) :
    ∃ delta, (Stop env qc tr).2 = tr ++ delta ∧ sendsOf delta = [] := by
  obtain ⟨hA, hB, hC⟩ := Stop_cases env qc tr
  simp only [List.append_assoc, List.singleton_append] at hA hB hC
  cases h1 : env.StopClient tr qc.StakingQueue with
  | some e => exact ⟨_, congrArg Prod.snd (hA e h1), rfl⟩
  | none =>
    cases h2 : env.StopClient (tr ++ [Effect.stop qc.StakingQueue none])
        qc.UnbondingQueue with
    | some e => exact ⟨_, congrArg Prod.snd (hB h1 e h2), rfl⟩
    | none => exact ⟨_, congrArg Prod.snd (hC h1 h2), rfl⟩

/-- A sequence of `Stop` calls adds no send to the trace. -/
theorem runCalls_stops_no_send (env : Env SE UE WE) (qc : QueueConsumer)
    (cs : List (Call SE UE WE)) (tr : Trace) (h : cs.any Call.isPush = false) :
    ∃ delta, runCalls env qc cs tr = tr ++ delta ∧ sendsOf delta = [] := by
  induction cs generalizing tr with
  | nil => exact ⟨[], by simp [runCalls], rfl⟩
  | cons c rest ih =>
    simp only [List.any_cons, Bool.or_eq_false_iff] at h
    cases c with
    | stop =>
      obtain ⟨d1, hd1, hs1⟩ := Stop_no_send env qc tr
      obtain ⟨d2, hd2, hs2⟩ := ih (tr ++ d1) h.2
      refine ⟨d1 ++ d2, ?_, by rw [sendsOf_append, hs1, hs2]; rfl⟩
      simp only [runCalls, runCall, hd1, hd2, List.append_assoc]
    | pushStaking ev => simp [Call.isPush] at h
    | pushUnbonding ev => simp [Call.isPush] at h
    | pushWithdraw ev => simp [Call.isPush] at h

/-- C8 as stated fails: a staking push called after `Stop` sends on the
staking client, which `Stop` has closed. -/
theorem push_after_Stop_sends_on_closed_client :
    runCalls demoEnv demoConsumer [Call.stop, Call.pushStaking "a1b2c3"] [] =
      [Effect.stop 0 none, Effect.stop 1 none, Effect.stop 2 none,
        Effect.info demoConsumer.logger "pushing staking event" "a1b2c3",
        Effect.sendMessage 0 "staking a1b2c3" none,
        Effect.info demoConsumer.logger "successfully pushed staking event" "a1b2c3"] ∧
    sendAfterClose []
      (runCalls demoEnv demoConsumer [Call.stop, Call.pushStaking "a1b2c3"] []) = true := by
  decide

/-- C8, amended: in every sequence of push and `Stop` calls on one consumer in
which no push call comes after a `Stop` call, no send is made on a client
after a close call on that client. -/
theorem no_send_after_close_of_no_push_after_Stop (env : Env SE UE WE)
    (qc : QueueConsumer) (cs : List (Call SE UE WE)) (tr : Trace)
    (h : pushAfterStop cs = false) :
    ∃ delta, runCalls env qc cs tr = tr ++ delta ∧ sendAfterClose [] delta = false := by
  induction cs generalizing tr with
  | nil => exact ⟨[], by simp [runCalls], rfl⟩
  | cons c rest ih =>
    cases hc : c.isPush with
    | false =>
      cases c with
      | stop =>
        obtain ⟨delta, hd, hs⟩ := runCalls_stops_no_send env qc (Call.stop :: rest) tr
          (by simpa [pushAfterStop, Call.isPush] using h)
        exact ⟨delta, hd, sendAfterClose_of_no_send delta [] hs⟩
      | pushStaking ev => simp [Call.isPush] at hc
      | pushUnbonding ev => simp [Call.isPush] at hc
      | pushWithdraw ev => simp [Call.isPush] at hc
    | true =>
      obtain ⟨d1, hd1, hs1⟩ := runCall_push_no_stop env qc c tr hc
      have hrest : pushAfterStop rest = false := by
        cases c with
        | stop => simp [Call.isPush] at hc
        | pushStaking ev => simpa [pushAfterStop] using h
        | pushUnbonding ev => simpa [pushAfterStop] using h
        | pushWithdraw ev => simpa [pushAfterStop] using h
      obtain ⟨d2, hd2, hs2⟩ := ih (tr ++ d1) hrest
      refine ⟨d1 ++ d2, ?_, ?_⟩
      · simp only [runCalls, hd1, hd2, List.append_assoc]
      · rw [sendAfterClose_append_of_no_stop d1 d2 hs1, hs2]

/-- Witness of the amended C8: two pushes, the second refused by the encoder,
then `Stop`. -/
theorem no_send_after_close_of_no_push_after_Stop_witness :
    pushAfterStop [Call.pushStaking "a1b2c3", Call.pushWithdraw "", (Call.stop :
      Call String String String)] = false ∧
    ∃ delta, runCalls demoEnv demoConsumer
        [Call.pushStaking "a1b2c3", Call.pushWithdraw "", Call.stop] [] = [] ++ delta ∧
      sendAfterClose [] delta = false :=
  ⟨by decide,
    no_send_after_close_of_no_push_after_Stop demoEnv demoConsumer
      [Call.pushStaking "a1b2c3", Call.pushWithdraw "", Call.stop] [] (by decide)⟩

end Sequences

end Consumer
